import Mathlib

/-
Verification of the glob-matching / MIME resolution engine
(src/mime/backends/linux.py and src/mime/backends/base.py).

The Python code is shallowly embedded: each Python function becomes a pure
Lean function on explicit state.  Python exceptions are modelled with
`Except PyErr`.  Lines of a source file are modelled as the list of the
lines with their trailing newline already removed (the Python code strips
the trailing newline itself; this does not affect the leading-# comment
test or any field).
-/

/-- Python runtime errors raised by the embedded code. -/
inductive PyErr where
  | valueError
  | indexError
  | typeError
  | keyError (k : String)
  | attributeError (a : String)
  | nameError (n : String)
deriving DecidableEq

/-- `str.partition(":")` restricted to the first component and the
remainder: splits at the first colon; when there is no colon the whole
string is the first component and the remainder is empty
(Python returns `(s, "", "")` in that case). -/
def partitionColon : List Char → List Char × List Char
  | [] => ([], [])
  | ':' :: rest => ([], rest)
  | c :: rest =>
    let p := partitionColon rest
    (c :: p.1, p.2)

/-- `str.split(sep)` for a one-character separator: every occurrence
splits, empty pieces are kept (`"a,,b".split(",") == ["a","","b"]`). -/
def splitOnChar (sep : Char) : List Char → List (List Char)
  | [] => [[]]
  | c :: rest =>
    if c = sep then [] :: splitOnChar sep rest
    else
      match splitOnChar sep rest with
      | [] => [[c]]
      | h :: t => (c :: h) :: t

/-- The characters Python `str.strip()` / `int(str)` treat as whitespace
(ASCII fragment, which is all the embedded claims need). -/
def isPySpace (c : Char) : Bool :=
  c = ' ' || c = '\t' || c = '\n' || c = '\r' || c = '\x0b' || c = '\x0c'

/-- Strip leading and trailing whitespace, as Python `str.strip()`. -/
def stripWS (l : List Char) : List Char :=
  ((l.dropWhile isPySpace).reverse.dropWhile isPySpace).reverse

/-- Digit-sequence accumulator for `pyInt`. -/
def digitsToNatAux : List Char → Nat → Option Nat
  | [], acc => some acc
  | c :: rest, acc =>
    if c.isDigit then digitsToNatAux rest (acc * 10 + (c.toNat - 48))
    else none

/-- A non-empty all-digit sequence to its value; `none` otherwise. -/
def digitsToNat : List Char → Option Nat
  | [] => none
  | l => digitsToNatAux l 0

/-- Python `int(s)` (base 10): optional surrounding whitespace, optional
sign, then a non-empty digit sequence; anything else raises `ValueError`
(modelled as `none`). -/
def pyInt (l : List Char) : Option Int :=
  match stripWS l with
  | '-' :: ds => (digitsToNat ds).map (fun n => -(n : Int))
  | '+' :: ds => (digitsToNat ds).map (fun n => (n : Int))
  | ds => (digitsToNat ds).map (fun n => (n : Int))

/-- `line.startswith("#")`. -/
def startsHash : List Char → Bool
  | '#' :: _ => true
  | _ => false

/-- Python `str.lower()` restricted to ASCII (the embedded claims only
involve ASCII file names). -/
def lowerChar (c : Char) : Char :=
  if 'A' ≤ c && c ≤ 'Z' then Char.ofNat (c.toNat + 32) else c

/-- `name.lower()` on a whole string. -/
def lowerStr (s : String) : String := ⟨s.data.map lowerChar⟩

/-- `name.replace("/", "-")`: character-wise replacement (both the needle
and the replacement are single characters). -/
def replaceSlashDash (s : String) : String :=
  ⟨s.data.map (fun c => if c = '/' then '-' else c)⟩

/- ---------------------------------------------------------------------
fnmatch.fnmatch (POSIX: os.path.normcase is the identity, so matching is
case-sensitive): anchored shell-glob matching with the wildcards `*`,
`?`, and `[...]` (leading `!` negates; a `]` directly after `[` or `[!`
is a literal member; `a-b` is a range; an unterminated `[` is a literal
character).
--------------------------------------------------------------------- -/

/-- Split a bracket-expression body at its closing `]`, returning the set
body and the rest of the pattern; `none` when the `]` is missing. -/
def scanClose : List Char → Option (List Char × List Char)
  | [] => none
  | ']' :: rest => some ([], rest)
  | c :: rest => (scanClose rest).map (fun p => (c :: p.1, p.2))

/-- The body of a `[...]` set, honouring the rule that a `]` right after
the opening `[` (or after `[!`) is a literal member of the set. -/
def splitBracket (l : List Char) : Option (List Char × List Char) :=
  match l with
  | '!' :: ']' :: rest => (scanClose rest).map (fun p => ('!' :: ']' :: p.1, p.2))
  | '!' :: rest => (scanClose rest).map (fun p => ('!' :: p.1, p.2))
  | ']' :: rest => (scanClose rest).map (fun p => (']' :: p.1, p.2))
  | rest => scanClose rest

/-- Membership of a character in a (non-negated) bracket-set body,
with `a-b` ranges; a leading or trailing `-` is a literal member. -/
def memSet : List Char → Char → Bool
  | [], _ => false
  | [a], c => a = c
  | a :: '-' :: b :: rest, c => (a ≤ c && c ≤ b) || memSet rest c
  | a :: rest, c => a = c || memSet rest c

/-- A full bracket-set body against one character (leading `!` negates). -/
def matchSet (content : List Char) (c : Char) : Bool :=
  match content with
  | '!' :: rest => !(memSet rest c)
  | _ => memSet content c

/-- Fuel-indexed anchored glob matcher.  Every recursive call strictly
decreases the combined length of pattern and subject, so fuel equal to
that combined length plus one never runs out. -/
def globMatchF : Nat → List Char → List Char → Bool
  | 0, _, _ => false
  | fuel + 1, pat, s =>
    match pat, s with
    | [], [] => true
    | [], _ :: _ => false
    | '*' :: ps, [] => globMatchF fuel ps []
    | '*' :: ps, c :: cs =>
      globMatchF fuel ps (c :: cs) || globMatchF fuel ('*' :: ps) cs
    | '?' :: _, [] => false
    | '?' :: ps, _ :: cs => globMatchF fuel ps cs
    | '[' :: ps, str =>
      match splitBracket ps with
      | none =>
        match str with
        | [] => false
        | c :: cs => ('[' = c) && globMatchF fuel ps cs
      | some (content, rest) =>
        match str with
        | [] => false
        | c :: cs => matchSet content c && globMatchF fuel rest cs
    | _ :: _, [] => false
    | p :: ps, c :: cs => (p = c) && globMatchF fuel ps cs

/-- `fnmatch.fnmatch(name, pat)` on POSIX. -/
def fnmatchB (name pat : String) : Bool :=
  globMatchF (pat.data.length + name.data.length + 1) pat.data name.data

/- ---------------------------------------------------------------------
GlobsFile (linux.py, class GlobsFile): the Glob Index.
--------------------------------------------------------------------- -/

/-- One parsed globs2 rule: the tuple `(int(weight), mime, glob, flags)`
appended to `self.__matches`. -/
structure Rule where
  weight : Int
  mime : String
  glob : String
  flags : List String
deriving DecidableEq

/-- The `GlobsFile` state: the ordered rule list `self.__matches` and the
literal dictionary `self.__literals` (modelled as an association list
where the most recent binding is first, matching dict overwrite). -/
structure GlobsFile where
  rules : List Rule
  literals : List (String × Nat)
deriving DecidableEq

/-- A fresh `GlobsFile()`. -/
def emptyGlobs : GlobsFile := ⟨[], []⟩

/-- Dictionary lookup in the literal index (first binding wins, i.e. the
most recently written one). -/
def lookupLit : List (String × Nat) → String → Option Nat
  | [], _ => none
  | (k, v) :: rest, name => if k = name then some v else lookupLit rest name

/-- `"*" not in glob and "?" not in glob and "[" not in glob`. -/
def isLiteralGlob (l : List Char) : Bool :=
  !(l.contains '*') && !(l.contains '?') && !(l.contains '[')

/-- The four colon-delimited fields of a globs2 line
(`weight : typeName : glob : flags`, anything after a fourth colon is
dropped, exactly as the chain of `partition(":")` calls does). -/
def globFields (line : String) : List Char × List Char × List Char × List Char :=
  let p1 := partitionColon line.data
  let p2 := partitionColon p1.2
  let p3 := partitionColon p2.2
  let p4 := partitionColon p3.2
  (p1.1, p2.1, p3.1, p4.1)

/-- The state update performed for one accepted globs2 line: append the
rule to `__matches`; when the glob is wildcard-free record
`len(self.__matches)` in `__literals` — note this is the length AFTER the
append, i.e. one past the index of the rule just appended (the code as
written). -/
def mkParsed (g : GlobsFile) (weight : Int) (mime glob flagsS : List Char) : GlobsFile :=
  let flags : List String :=
    match flagsS with
    | [] => []
    | _ => (splitOnChar ',' flagsS).map (fun l => (⟨l⟩ : String))
  let ms := g.rules ++ [⟨weight, ⟨mime⟩, ⟨glob⟩, flags⟩]
  match isLiteralGlob glob with
  | true => ⟨ms, ((⟨glob⟩ : String), ms.length) :: g.literals⟩
  | false => ⟨ms, g.literals⟩

/-- `GlobsFile.parse`, one line: skip `#` comments; split the fields;
`int(weight)` raises `ValueError` on a malformed weight; otherwise append
the rule (and possibly the literal-index entry). -/
def parseGlobLine (g : GlobsFile) (line : String) : Except PyErr GlobsFile :=
  match startsHash line.data with
  | true => .ok g
  | false =>
    match globFields line with
    | (w, mime, glob, flagsS) =>
      match pyInt w with
      | none => .error .valueError
      | some weight => .ok (mkParsed g weight mime glob flagsS)

/-- `GlobsFile.parse` over a whole source (list of lines). -/
def globsParse (g : GlobsFile) (lines : List String) : Except PyErr GlobsFile :=
  match lines with
  | [] => .ok g
  | l :: rest =>
    match parseGlobLine g l with
    | .error e => .error e
    | .ok g2 => globsParse g2 rest

/-- The per-rule test of the scan loop in `GlobsFile.match`: the rule
matches when `fnmatch(name, glob)` holds, or the rule is not flagged
`cs` and `fnmatch(name.lower(), glob)` holds. -/
def ruleMatches (name : String) (r : Rule) : Bool :=
  fnmatchB name r.glob || (!(r.flags.contains "cs") && fnmatchB (lowerStr name) r.glob)

/-- The candidate list built by the scan loop, in rule order. -/
def matchingRules (g : GlobsFile) (name : String) : List Rule :=
  g.rules.filter (fun r => ruleMatches name r)

/-- The sort key of `max(matches, key=...)`: `(weight, len(glob))`. -/
def ruleKey (r : Rule) : Int × Nat := (r.weight, r.glob.length)

/-- Strict lexicographic order on `(weight, length)` keys, i.e. Python
tuple `<`. -/
def keyLt (a b : Int × Nat) : Prop :=
  a.1 < b.1 ∨ (a.1 = b.1 ∧ a.2 < b.2)

instance (a b : Int × Nat) : Decidable (keyLt a b) :=
  inferInstanceAs (Decidable (a.1 < b.1 ∨ (a.1 = b.1 ∧ a.2 < b.2)))

/-- One step of Python `max` with a key: keep the current best unless the
next element is strictly greater (so the first of equal-key elements
wins). -/
def pickStep (b c : Rule) : Rule :=
  if keyLt (ruleKey b) (ruleKey c) then c else b

/-- Python `max(x :: xs, key=...)`. -/
def pickBest (x : Rule) (xs : List Rule) : Rule := xs.foldl pickStep x

/-- `GlobsFile.match`: literal fast path first (dictionary lookup, then a
Python list indexing that raises `IndexError` when out of range), else
the weighted scan; no candidate at all yields the empty string. -/
def globsMatch (g : GlobsFile) (name : String) : Except PyErr String :=
  match lookupLit g.literals name with
  | some i =>
    match g.rules.get? i with
    | some r => .ok r.mime
    | none => .error .indexError
  | none =>
    match matchingRules g name with
    | [] => .ok ""
    | x :: xs => .ok (pickBest x xs).mime

/- ---------------------------------------------------------------------
BaseMime (base.py) and the MimeType facade (linux.py, class MimeType).
--------------------------------------------------------------------- -/

/-- The externally visible handle: `BaseMime.__init__` stores the type
name (`self.__name`); `name()` returns it. -/
structure BaseMime where
  name : String
deriving DecidableEq

/-- `BaseMime.DEFAULT_TEXT` (a class attribute). -/
def DEFAULT_TEXT : String := "text/plain"

/-- `BaseMime.DEFAULT_BINARY` (a class attribute). -/
def DEFAULT_BINARY : String := "application/octet-stream"

/-- The right operand of `BaseMime.__eq__`: another handle or a raw
string. -/
inductive MimeOrStr where
  | mime (m : BaseMime)
  | str (s : String)
deriving DecidableEq

/-- `BaseMime.__eq__` (base.py lines 13-16).  The body first evaluates
`isinstance(other, BaseMimeType)`; the name `BaseMimeType` is bound
nowhere in the module (the class is called `BaseMime`), so every call
raises `NameError` before any name comparison happens. -/
def mimeEq (_self : BaseMime) (_other : MimeOrStr) : Except PyErr Bool :=
  .error (.nameError "BaseMimeType")

/-- `BaseMime.isDefault` (base.py lines 21-23).  `name = self.name()`
succeeds, but the comparison `name == DEFAULT_BINARY` refers to the bare
names `DEFAULT_BINARY` / `DEFAULT_TEXT`: class attributes are not in
scope inside a method body, so every call raises `NameError` for
`DEFAULT_BINARY` (the first of the two evaluated). -/
def mimeIsDefault (_self : BaseMime) : Except PyErr Bool :=
  .error (.nameError "DEFAULT_BINARY")

/-- `MimeType.fromName`: construct a handle only for a truthy (non-empty)
match result; an empty string falls through to the implicit `None`. -/
def fromName (g : GlobsFile) (name : String) : Except PyErr (Option BaseMime) :=
  match globsMatch g name with
  | .error e => .error e
  | .ok mime => .ok (if mime = "" then none else some ⟨mime⟩)

/- ---------------------------------------------------------------------
IconsFile (linux.py) and the icon facade.
--------------------------------------------------------------------- -/

/-- `IconsFile.parse`, one line: `mime, icon = line.split(":")` raises
`ValueError` unless the line has exactly one colon; the dictionary write
is modelled by prepending (most recent binding first). -/
def parseIconsLine (icons : List (String × String)) (line : String) :
    Except PyErr (List (String × String)) :=
  match splitOnChar ':' line.data with
  | [m, i] => .ok (((⟨m⟩ : String), (⟨i⟩ : String)) :: icons)
  | _ => .error .valueError

/-- `IconsFile.parse` over a whole source. -/
def parseIconsLines (icons : List (String × String)) (lines : List String) :
    Except PyErr (List (String × String)) :=
  match lines with
  | [] => .ok icons
  | l :: rest =>
    match parseIconsLine icons l with
    | .error e => .error e
    | .ok icons2 => parseIconsLines icons2 rest

/-- `IconsFile.get` / `dict.get`: `None` when the key is absent. -/
def iconsGet (icons : List (String × String)) (name : String) : Option String :=
  match icons with
  | [] => none
  | (k, v) :: rest => if k = name then some v else iconsGet rest name

/-- `MimeType.genericIcon`: `ICONS.get(self.name())`. -/
def genericIcon (icons : List (String × String)) (m : BaseMime) : Option String :=
  iconsGet icons m.name

/-- `BaseMime.icon`: `self.genericIcon() or self.name().replace("/", "-")`.
Python `or` falls through both on `None` and on the falsy empty
string. -/
def mimeIcon (icons : List (String × String)) (m : BaseMime) : String :=
  match genericIcon icons m with
  | some s => if s = "" then replaceSlashDash m.name else s
  | none => replaceSlashDash m.name

/- ---------------------------------------------------------------------
MimeType.comment and MimeType.aliases (linux.py), with the per-type
structured documents supplied by the external locator
(`getMimeFiles`) abstracted as already-parsed element lists.
--------------------------------------------------------------------- -/

/-- One `<comment>` element of a type document: its `xml:lang` attribute
(`""` models an absent attribute, exactly what `getAttributeNS` returns)
and its joined text content. -/
structure CommentElem where
  langAttr : String
  text : String
deriving DecidableEq

/-- `comment.getAttributeNS(XML_NAMESPACE, "lang") or "en"`. -/
def nsLang (c : CommentElem) : String :=
  if c.langAttr = "" then "en" else c.langAttr

/-- `"".join(n.nodeValue for n in comment.childNodes).strip()`, with the
join abstracted into the text field. -/
def joinedStripped (c : CommentElem) : String := ⟨stripWS c.text.data⟩

/-- The value `BaseMime.__init__` gives `self._comment`: `None`, not an
empty dictionary. -/
def initCommentCache : Option (List (String × String)) := none

/-- `MimeType.comment(lang)` (linux.py lines 173-187), over an explicit
cache state (`self._comment`) and the located documents, each given as
its list of namespaced `<comment>` elements in document order.  The
entry test `lang not in self._comment` raises `TypeError` when the cache
is `None` (membership test on `None`); when the populate loop finds no
element for `lang` the final `self._comment[lang]` raises `KeyError`.
Each document overwrites the entry with its first matching element (the
`break` leaves only the inner loop), modelled by prepending.  Returns
the result together with the updated cache. -/
def mimeComment (cache : Option (List (String × String)))
    (files : List (List CommentElem)) (lang : String) :
    Except PyErr (Option String × List (String × String)) :=
  match cache with
  | none => .error .typeError
  | some m =>
    match iconsGet m lang with
    | some v => .ok (some v, m)
    | none =>
      match files with
      | [] => .ok (none, m)
      | _ =>
        let m2 := files.foldl
          (fun acc file =>
            match file.find? (fun c => nsLang c == lang) with
            | some c => (lang, joinedStripped c) :: acc
            | none => acc) m
        match iconsGet m2 lang with
        | some v => .ok (some v, m2)
        | none => .error (.keyError lang)

/-- The attribute `self._aliases`: `BaseMime.__init__` assigns only
`self.__name` and `self._comment`, so on a fresh object the attribute
does not exist at all (`none` models the missing attribute). -/
def initAliasesAttr : Option (List String) := none

/-- `MimeType.aliases` (linux.py lines 155-168), over the explicit
`_aliases` attribute state and the located documents, each given as its
ordered list of `<alias>` element `type` attributes.  The guard
`if not self._aliases:` reads the attribute, raising `AttributeError`
when it was never assigned; otherwise an empty (falsy) list triggers the
populate pass: bare `return` (i.e. `None`) when no documents exist, else
append each alias not already present, in order. -/
def mimeAliases (attr : Option (List String)) (files : List (List String)) :
    Except PyErr (Option (List String)) :=
  match attr with
  | none => .error (.attributeError "_aliases")
  | some al =>
    match al with
    | _ :: _ => .ok (some al)
    | [] =>
      match files with
      | [] => .ok none
      | _ =>
        .ok (some (files.foldl
          (fun acc file =>
            file.foldl (fun a x => if a.contains x then a else a ++ [x]) acc)
          al))


/- ---------------------------------------------------------------------
The selection property of `max(matches, key=lambda ...: (weight, len(glob)))`:
it returns the first-encountered candidate whose (weight, pattern length)
key is maximal in the lexicographic order.
--------------------------------------------------------------------- -/

theorem keyLt_irrefl (a : Int × Nat) : ¬ keyLt a a := by
  unfold keyLt; omega

theorem keyLt_asymm {a b : Int × Nat} (h : keyLt a b) : ¬ keyLt b a := by
  unfold keyLt at *; omega

theorem keyLt_trans {a b c : Int × Nat} (h1 : keyLt a b) (h2 : keyLt b c) :
    keyLt a c := by
  unfold keyLt at *; omega

theorem keyLt_of_not_lt_of_lt {a b c : Int × Nat} (h1 : ¬ keyLt a b)
    (h2 : keyLt a c) : keyLt b c := by
  unfold keyLt at *; omega

/-- The element `sel` is the one the scan selects from the candidate list
`l`: it occurs in `l`, every candidate strictly before that occurrence
has a strictly smaller (weight, pattern length) key, and no candidate at
all has a strictly larger key. -/
def Selected (l : List Rule) (sel : Rule) : Prop :=
  ∃ pre post, l = pre ++ sel :: post
    ∧ (∀ p ∈ pre, keyLt (ruleKey p) (ruleKey sel))
    ∧ (∀ q ∈ l, ¬ keyLt (ruleKey sel) (ruleKey q))

/-- Python `max` over a non-empty candidate list with the
`(weight, len(glob))` key selects exactly the first-encountered candidate
of maximal key. -/
theorem pickBest_selected (xs : List Rule) :
    ∀ x : Rule, Selected (x :: xs) (pickBest x xs) := by
  induction xs with
  | nil =>
    intro x
    refine ⟨[], [], rfl, ?_, ?_⟩
    · intro p hp; simp at hp
    · intro q hq
      have hqx : q = x := by simpa using hq
      subst hqx
      exact keyLt_irrefl _
  | cons y ys ih =>
    intro x
    have hPB : pickBest x (y :: ys) = pickBest (pickStep x y) ys := rfl
    by_cases h : keyLt (ruleKey x) (ruleKey y)
    · have hs : pickStep x y = y := if_pos h
      obtain ⟨pre, post, heq, hpre, hall⟩ := ih (pickStep x y)
      rw [hs] at heq hpre hall
      have hgoal : pickBest x (y :: ys) = pickBest y ys := by rw [hPB, hs]
      rw [hgoal]
      have hxb : keyLt (ruleKey x) (ruleKey (pickBest y ys)) := by
        cases pre with
        | nil =>
          rw [List.nil_append] at heq
          injection heq with h1 _
          rw [← h1]; exact h
        | cons p0 pre1 =>
          rw [List.cons_append] at heq
          injection heq with h1 _
          have hp0 := hpre p0 (List.mem_cons_self p0 pre1)
          rw [← h1] at hp0
          exact keyLt_trans h hp0
      refine ⟨x :: pre, post, ?_, ?_, ?_⟩
      · rw [List.cons_append, ← heq]
      · intro p hp
        rcases List.mem_cons.mp hp with rfl | hp2
        · exact hxb
        · exact hpre p hp2
      · intro q hq
        rcases List.mem_cons.mp hq with rfl | hq2
        · exact keyLt_asymm hxb
        · exact hall q hq2
    · have hs : pickStep x y = x := if_neg h
      obtain ⟨pre, post, heq, hpre, hall⟩ := ih (pickStep x y)
      rw [hs] at heq hpre hall
      have hgoal : pickBest x (y :: ys) = pickBest x ys := by rw [hPB, hs]
      rw [hgoal]
      cases pre with
      | nil =>
        rw [List.nil_append] at heq
        injection heq with h1 h2
        refine ⟨[], y :: ys, ?_, ?_, ?_⟩
        · rw [List.nil_append, ← h1]
        · intro p hp; simp at hp
        · intro q hq
          rcases List.mem_cons.mp hq with rfl | hq2
          · rw [← h1]; exact keyLt_irrefl _
          · rcases List.mem_cons.mp hq2 with rfl | hq3
            · rw [← h1]; exact h
            · exact hall q (List.mem_cons_of_mem _ hq3)
      | cons p0 pre1 =>
        rw [List.cons_append] at heq
        injection heq with h1 h2
        have hxb : keyLt (ruleKey x) (ruleKey (pickBest x ys)) := by
          have hp0 := hpre p0 (List.mem_cons_self p0 pre1)
          rw [← h1] at hp0
          exact hp0
        have hyb : keyLt (ruleKey y) (ruleKey (pickBest x ys)) :=
          keyLt_of_not_lt_of_lt h hxb
        refine ⟨x :: y :: pre1, post, ?_, ?_, ?_⟩
        · rw [List.cons_append, List.cons_append, ← h2]
        · intro p hp
          rcases List.mem_cons.mp hp with rfl | hp2
          · exact hxb
          · rcases List.mem_cons.mp hp2 with rfl | hp3
            · exact hyb
            · exact hpre p (List.mem_cons_of_mem _ hp3)
        · intro q hq
          rcases List.mem_cons.mp hq with rfl | hq2
          · exact keyLt_asymm hxb
          · rcases List.mem_cons.mp hq2 with rfl | hq3
            · exact keyLt_asymm hyb
            · exact hall q (List.mem_cons_of_mem _ hq3)

/- ---------------------------------------------------------------------
Claim theorems.
--------------------------------------------------------------------- -/

/-- C1: the literal fast path is broken by an off-by-one error.
`GlobsFile.parse` records `len(self.__matches)` AFTER appending the rule,
so the literal index points one past the literal rule.  For the single
line `50:text/x-makefile:Makefile:` the index is 1 while the only rule
sits at 0, and `match("Makefile")` raises `IndexError` instead of
returning `text/x-makefile`; with a later rule `40:text/plain:*.txt:`
appended, `match("Makefile")` returns the FOLLOWING rule's type name
`text/plain`, not the literal rule's `text/x-makefile`. -/
theorem literal_index_off_by_one :
    globsParse emptyGlobs ["50:text/x-makefile:Makefile:"] =
      .ok ⟨[⟨50, "text/x-makefile", "Makefile", []⟩], [("Makefile", 1)]⟩
    ∧ globsMatch ⟨[⟨50, "text/x-makefile", "Makefile", []⟩], [("Makefile", 1)]⟩
        "Makefile" = .error .indexError
    ∧ globsParse emptyGlobs ["50:text/x-makefile:Makefile:", "40:text/plain:*.txt:"] =
      .ok ⟨[⟨50, "text/x-makefile", "Makefile", []⟩, ⟨40, "text/plain", "*.txt", []⟩],
           [("Makefile", 1)]⟩
    ∧ globsMatch ⟨[⟨50, "text/x-makefile", "Makefile", []⟩, ⟨40, "text/plain", "*.txt", []⟩],
        [("Makefile", 1)]⟩ "Makefile" = .ok "text/plain" :=
  ⟨rfl, rfl, rfl, rfl⟩

/-- C2: for a file name that misses the literal index but has at least
one matching rule, `match` returns the type name of the candidate that
is maximal in the lexicographic `(weight, len(glob))` order, the
first-encountered one on ties. -/
theorem match_picks_max_weight_then_length (g : GlobsFile) (name : String)
    (h1 : lookupLit g.literals name = none) (r : Rule) (rest : List Rule)
    (h2 : matchingRules g name = r :: rest) :
    Selected (r :: rest) (pickBest r rest)
    ∧ globsMatch g name = .ok (pickBest r rest).mime := by
  refine ⟨pickBest_selected rest r, ?_⟩
  unfold globsMatch
  rw [h1, h2]

/-- The two-rule tie: at equal weight 50, globs `*.gz` and `*.tar.gz`
both match `x.tar.gz` and the longer pattern is selected. -/
def gzRule : Rule := ⟨50, "application/gzip", "*.gz", []⟩

/-- See `gzRule`. -/
def tgzRule : Rule := ⟨50, "application/x-tgz", "*.tar.gz", []⟩

/-- A Glob Index holding `gzRule` then `tgzRule`, no literals. -/
def gTie : GlobsFile := ⟨[gzRule, tgzRule], []⟩

/-- Witness for C2 at a concrete input: both rules match `x.tar.gz` at
equal weight and the longer `*.tar.gz` rule is selected. -/
theorem match_picks_max_weight_then_length_witness :
    Selected [gzRule, tgzRule] tgzRule
    ∧ globsMatch gTie "x.tar.gz" = .ok "application/x-tgz" := by
  have h := match_picks_max_weight_then_length gTie "x.tar.gz" rfl gzRule [tgzRule]
    (by decide)
  have e1 : pickBest gzRule [tgzRule] = tgzRule := by decide
  rw [e1] at h
  exact h

/-- C3 counterexample: the rule `*.JPG` without the `cs` flag does NOT
match the file name `photo.jpg` — only the file name is lowercased, the
pattern is not, so `photo.jpg` fails against the uppercase pattern both
times and the overall match returns the no-match sentinel. -/
theorem jpg_rule_does_not_match_lowercase_name :
    ruleMatches "photo.jpg" ⟨50, "image/jpeg", "*.JPG", []⟩ = false
    ∧ globsMatch ⟨[⟨50, "image/jpeg", "*.JPG", []⟩], []⟩ "photo.jpg" = .ok "" :=
  ⟨rfl, rfl⟩

/-- C3 amended: a rule without the `cs` flag is a candidate exactly when
the file name itself, or the lowercase form of the file name, matches
the pattern under case-sensitive glob semantics (so a lowercase pattern
`*.jpg` matches `PHOTO.JPG`, but an uppercase pattern `*.JPG` does not
match `photo.jpg`). -/
theorem rule_match_case_fallback (g : GlobsFile) (name : String) (r : Rule)
    (h : r.flags.contains "cs" = false) :
    r ∈ matchingRules g name ↔
      r ∈ g.rules ∧ (fnmatchB name r.glob = true ∨ fnmatchB (lowerStr name) r.glob = true) := by
  unfold matchingRules
  rw [List.mem_filter]
  unfold ruleMatches
  rw [h]
  simp

/-- A lowercase-pattern rule for the C3 witness. -/
def jpgLowerRule : Rule := ⟨50, "image/jpeg", "*.jpg", []⟩

/-- A Glob Index holding only `jpgLowerRule`. -/
def gJpg : GlobsFile := ⟨[jpgLowerRule], []⟩

/-- Witness for C3: the un-flagged rule `*.jpg` is a candidate for the
file name `PHOTO.JPG` via the lowercase fallback. -/
theorem rule_match_case_fallback_witness :
    jpgLowerRule ∈ matchingRules gJpg "PHOTO.JPG" := by
  refine (rule_match_case_fallback gJpg "PHOTO.JPG" jpgLowerRule rfl).mpr ?_
  exact ⟨by decide, Or.inr (by decide)⟩

/-- C9 counterexample: the non-comment line `50::` is missing both the
`typeName` and the `glob` field, yet `GlobsFile.parse` accepts it without
any error, fabricating a rule with empty type name and empty glob (and
even recording the empty glob in the literal index). -/
theorem parse_missing_fields_accepted :
    parseGlobLine emptyGlobs "50::" = .ok ⟨[⟨50, "", "", []⟩], [("", 1)]⟩ := rfl

/-- C9 amended: for a non-comment line, `GlobsFile.parse` raises a
load-time error (Python `ValueError` from `int`) exactly when the weight
field — the text before the first colon — does not parse as an integer;
a line with a valid weight but missing or empty `typeName` or `glob`
fields is accepted silently. -/
theorem parse_error_iff_bad_weight (g : GlobsFile) (line : String)
    (h : startsHash line.data = false) :
    parseGlobLine g line = .error .valueError ↔ pyInt (globFields line).1 = none := by
  unfold parseGlobLine
  rw [h]
  rcases hgf : globFields line with ⟨w, mi, gl, fl⟩
  cases hpi : pyInt w <;> simp [hpi]

/-- Witness for C9: the line `50::` (valid weight, missing mandatory
fields) is not rejected, while `:a:b` (empty weight field) is. -/
theorem parse_error_iff_bad_weight_witness :
    parseGlobLine emptyGlobs "50::" ≠ .error .valueError
    ∧ parseGlobLine emptyGlobs ":a:b" = .error .valueError := by
  constructor
  · intro hcontra
    exact absurd ((parse_error_iff_bad_weight emptyGlobs "50::" rfl).mp hcontra)
      (by decide)
  · exact (parse_error_iff_bad_weight emptyGlobs ":a:b" rfl).mpr (by decide)

/-- C10: the Glob Index reports "no match" as the empty string, not as a
distinct absent value; `fromName` builds a handle exactly for a
non-empty match result, so it never yields a handle with an empty name,
and a matching rule whose type name is the empty string is
indistinguishable from no rule matching at all. -/
theorem fromname_empty_string_sentinel :
    (∀ (g : GlobsFile) (name : String), lookupLit g.literals name = none →
      matchingRules g name = [] → globsMatch g name = .ok "")
    ∧ (∀ (g : GlobsFile) (name m : String), globsMatch g name = .ok m →
      fromName g name = .ok (if m = "" then none else some ⟨m⟩))
    ∧ (∀ (g : GlobsFile) (name : String) (b : BaseMime),
      fromName g name = .ok (some b) → b.name ≠ "")
    ∧ fromName ⟨[⟨50, "", "*.x", []⟩], []⟩ "a.x" = .ok none
    ∧ fromName emptyGlobs "a.x" = .ok none := by
  refine ⟨?_, ?_, ?_, rfl, rfl⟩
  · intro g name h1 h2
    unfold globsMatch
    rw [h1, h2]
  · intro g name m h
    unfold fromName
    rw [h]
  · intro g name b h
    cases hm : globsMatch g name with
    | error e =>
      have h2 : fromName g name = .error e := by unfold fromName; rw [hm]
      rw [h2] at h
      exact Except.noConfusion h
    | ok m =>
      have h2 : fromName g name = .ok (if m = "" then none else some ⟨m⟩) := by
        unfold fromName; rw [hm]
      rw [h2] at h
      by_cases hme : m = ""
      · rw [if_pos hme] at h; simp at h
      · rw [if_neg hme] at h
        simp only [Except.ok.injEq, Option.some.injEq] at h
        rw [← h]
        simpa using hme

/-- Witness for C10: with an empty rule table the match result is the
empty-string sentinel and `fromName` yields the absent handle. -/
theorem fromname_empty_string_sentinel_witness :
    globsMatch emptyGlobs "noext" = .ok ""
    ∧ fromName emptyGlobs "noext" = .ok none := by
  have h1 := fromname_empty_string_sentinel.1 emptyGlobs "noext" rfl rfl
  have h2 := fromname_empty_string_sentinel.2.1 emptyGlobs "noext" "" h1
  exact ⟨h1, by simpa using h2⟩

/-- C4: `MimeType.comment` cannot return at all.  `BaseMime.__init__`
sets `self._comment = None` (not an empty dictionary), so the entry test
`lang not in self._comment` raises `TypeError` on every call; moreover,
even over a hypothetical empty-dictionary cache, a language with no
matching element in existing documents ends in `self._comment[lang]`
raising `KeyError` instead of returning the absent value the claim
describes. -/
theorem comment_lookup_raises :
    (∀ (files : List (List CommentElem)) (lang : String),
      mimeComment initCommentCache files lang = .error .typeError)
    ∧ mimeComment (some []) [[⟨"", "English text"⟩]] "fr" = .error (.keyError "fr") :=
  ⟨fun _ _ => rfl, rfl⟩

/-- C5: `BaseMime.__eq__` cannot compare at all: its first step
`isinstance(other, BaseMimeType)` refers to the undefined name
`BaseMimeType` (the class is `BaseMime`), so every equality comparison —
against another handle or against a raw string — raises `NameError`
instead of evaluating name equality. -/
theorem eq_raises_nameerror :
    ∀ (m : BaseMime) (other : MimeOrStr),
      mimeEq m other = .error (.nameError "BaseMimeType") :=
  fun _ _ => rfl

/-- C6: the designated default constants are `text/plain` and
`application/octet-stream`, but `BaseMime.isDefault` never returns a
boolean: it refers to `DEFAULT_BINARY` and `DEFAULT_TEXT` as bare names,
which are class attributes and not in scope inside the method body, so
every call raises `NameError`. -/
theorem isdefault_raises_nameerror :
    DEFAULT_TEXT = "text/plain" ∧ DEFAULT_BINARY = "application/octet-stream"
    ∧ ∀ m : BaseMime, mimeIsDefault m = .error (.nameError "DEFAULT_BINARY") :=
  ⟨rfl, rfl, fun _ => rfl⟩

/-- C8: `MimeType.aliases` cannot return at all: `self._aliases` is never
assigned anywhere (the constructor sets only the name and the comment
cache), so the very first read in `if not self._aliases:` raises
`AttributeError` for every input, in place of the absent-vs-list
behaviour the claim describes. -/
theorem aliases_raises_attributeerror :
    ∀ (files : List (List String)),
      mimeAliases initAliasesAttr files = .error (.attributeError "_aliases") :=
  fun _ => rfl

/-- A character-wise slash-to-hyphen replacement of a non-empty string is
non-empty. -/
theorem replaceSlashDash_ne_empty (s : String) (h : s ≠ "") :
    replaceSlashDash s ≠ "" := by
  cases s with
  | mk d =>
    intro heq
    have hd : d.map (fun c => if c = '/' then '-' else c) = [] :=
      congrArg String.data heq
    rw [List.map_eq_nil_iff] at hd
    subst hd
    exact h rfl

/-- C7 counterexample: a generic icon CAN be registered under a type name
with the empty string as its value (the icons line `application/x-foo:`
parses fine), and then `icon()` does not return that registered value:
the falsy empty string makes the `or` fall through to the derived
name. -/
theorem registered_empty_icon_not_returned :
    parseIconsLines [] ["application/x-foo:"] = .ok [("application/x-foo", "")]
    ∧ iconsGet [("application/x-foo", "")] "application/x-foo" = some ""
    ∧ mimeIcon [("application/x-foo", "")] ⟨"application/x-foo"⟩ = "application-x-foo"
    ∧ ("application-x-foo" : String) ≠ "" :=
  ⟨rfl, rfl, rfl, by decide⟩

/-- C7 amended: `icon()` is total and never absent; it returns the
registered generic icon name when a NON-EMPTY one exists for the type
name (an icon registered as the empty string is treated like an absent
one), otherwise the type name with `/` replaced by `-`; and the result
is non-empty whenever the type name is non-empty. -/
theorem icon_fallback (icons : List (String × String)) (m : BaseMime) :
    (∀ s, iconsGet icons m.name = some s → s ≠ "" → mimeIcon icons m = s)
    ∧ ((iconsGet icons m.name = none ∨ iconsGet icons m.name = some "") →
        mimeIcon icons m = replaceSlashDash m.name)
    ∧ (m.name ≠ "" → mimeIcon icons m ≠ "") := by
  have key : ∀ s0, iconsGet icons m.name = some s0 →
      mimeIcon icons m = if s0 = "" then replaceSlashDash m.name else s0 := by
    intro s0 h
    unfold mimeIcon genericIcon
    rw [h]
  have keyn : iconsGet icons m.name = none →
      mimeIcon icons m = replaceSlashDash m.name := by
    intro h
    unfold mimeIcon genericIcon
    rw [h]
  refine ⟨?_, ?_, ?_⟩
  · intro s hs hne
    rw [key s hs, if_neg hne]
  · intro hor
    rcases hor with h1 | h1
    · exact keyn h1
    · rw [key "" h1, if_pos rfl]
  · intro hn
    cases hg : iconsGet icons m.name with
    | none =>
      rw [keyn hg]
      exact replaceSlashDash_ne_empty m.name hn
    | some s0 =>
      rw [key s0 hg]
      by_cases hs0 : s0 = ""
      · rw [if_pos hs0]
        exact replaceSlashDash_ne_empty m.name hn
      · rw [if_neg hs0]
        exact hs0

/-- Witness for C7: with no registered icon the derived name is
returned, and with a registered non-empty icon that icon is returned. -/
theorem icon_fallback_witness :
    mimeIcon [] ⟨"application/x-foo"⟩ = "application-x-foo"
    ∧ mimeIcon [("a/b", "special")] ⟨"a/b"⟩ = "special" := by
  constructor
  · exact ((icon_fallback [] ⟨"application/x-foo"⟩).2.1 (Or.inl rfl)).trans rfl
  · exact (icon_fallback [("a/b", "special")] ⟨"a/b"⟩).1 "special" rfl (by decide)
